import Mathlib

/-!
Shallow embedding of the plugin hook-chain dispatcher and the webhook
event-delivery subsystem of the `cms` backend (files
`cms/plugins/manager.py`, `cms/plugins/base_plugin.py`,
`cms/plugins/webhook/plugin.py`, `cms/plugins/webhook/utils.py`).

Python plugin instances become Lean structures; the duck-typed hook lookup
(`getattr(plugin, method_name, NotImplemented)`) becomes a partial map from
hook names to hook functions; the `NotImplemented` sentinel returned by a
hook call becomes `Option.none`; database rows become Lean structures held
in lists; Django querysets/dicts become lists and association lookups.
`α` is the type of hook values (Python is untyped; hook "previous values"
are threaded opaquely), `β` the type of the extra hook arguments.
-/

namespace Saleor

/-- A configuration value.  Python stores arbitrary JSON values; the config
machinery under `src/` distinguishes only strings (which
`_update_config_items` may coerce to booleans for `Boolean`-typed fields)
and booleans, so values are modelled as that sum. -/
inductive CVal
  | s (v : String)
  | b (v : Bool)
deriving Repr, DecidableEq

/-- One `{name, value}` configuration entry, as stored in
`PluginConfiguration.configuration` and in `BasePlugin.DEFAULT_CONFIGURATION`
(`cms/plugins/base_plugin.py`). -/
structure CItem where
  name : String
  value : CVal
deriving Repr, DecidableEq

/-- One entry of a plugin class's `CONFIG_STRUCTURE` dict
(`cms/plugins/base_plugin.py`): the declared field name and its
`ConfigurationTypeField` type string.  The remaining metadata (labels,
help texts) never influences names or values and is omitted. -/
structure CField where
  name : String
  ftype : String
deriving Repr, DecidableEq

/-- A plugin class (`BasePlugin` subclass, `cms/plugins/base_plugin.py`):
the class attributes consulted by the manager and the constructor, plus the
hook methods the class implements.  `CONFIG_STRUCTURE = None` is modelled as
the empty list (the source normalises it with `or {}`).  `forceActive`
models `WebhookPlugin.__init__` (`cms/plugins/webhook/plugin.py`), which
runs `super().__init__(...)` and then unconditionally sets
`self.active = True`; plain `BasePlugin` subclasses have it `false`. -/
structure PClass (β α : Type) where
  pluginId : String
  pluginName : String
  pluginDescription : String
  perChannel : Bool
  defaultActive : Bool
  defaultConfiguration : List CItem
  configStructure : List CField
  forceActive : Bool
  hooks : String → Option (β → α → Option α)

/-- A loaded plugin instance (`BasePlugin.__init__`,
`cms/plugins/base_plugin.py`):  identity, the `active` flag, the bound
channel, the merged configuration, the class's declared config structure,
and the hook methods.  `hooks n = none` models a plugin that does not
implement hook `n` (`getattr(plugin, n, NotImplemented) is NotImplemented`);
`hooks n = some f` with `f args prev = none` models an implemented hook
whose call returns the `NotImplemented` sentinel. -/
structure Plugin (β α : Type) where
  pluginId : String
  pluginName : String
  pluginDescription : String
  active : Bool
  channel : Option String
  configuration : List CItem
  configStructure : List CField
  hooks : String → Option (β → α → Option α)

/-- `BasePlugin._update_configuration_structure`
(`cms/plugins/base_plugin.py`): keep only persisted entries whose name is
declared in `CONFIG_STRUCTURE` (in persisted order), then append, from
`DEFAULT_CONFIGURATION` (in declaration order), the entries for declared
names that the persisted configuration did not configure. -/
def updateConfigurationStructure (cls : PClass β α) (configuration : List CItem) :
    List CItem :=
  let desired := cls.configStructure.map CField.name
  let updated := configuration.filter (fun f => desired.contains f.name)
  let configured := updated.map CItem.name
  let missing := desired.filter (fun n => !(configured.contains n))
  if missing.isEmpty then updated
  else if cls.defaultConfiguration.isEmpty then updated
  else updated ++ cls.defaultConfiguration.filter (fun k => missing.contains k.name)

/-- `BasePlugin.get_plugin_configuration` (`cms/plugins/base_plugin.py`).
The source normalises a falsy configuration to `[]` (a no-op under the
filter) and then calls `_append_config_structure`, which only attaches
display metadata (labels, types, help texts) onto each entry and removes
entries lacking a structure entry; after `_update_configuration_structure`
every remaining name is declared, so entry names and values are unchanged
and that call is omitted from the model. -/
def getPluginConfiguration (cls : PClass β α) (configuration : List CItem) :
    List CItem :=
  updateConfigurationStructure cls configuration

/-- `BasePlugin.__init__` composed with the subclass override: build the
instance, merging the given configuration through
`get_plugin_configuration`; `WebhookPlugin.__init__` then overwrites
`self.active = True` (`forceActive`). -/
def pluginInit (cls : PClass β α) (configuration : List CItem) (active : Bool)
    (channel : Option String) : Plugin β α :=
  let p : Plugin β α :=
    { pluginId := cls.pluginId, pluginName := cls.pluginName,
      pluginDescription := cls.pluginDescription, active := active,
      channel := channel,
      configuration := getPluginConfiguration cls configuration,
      configStructure := cls.configStructure, hooks := cls.hooks }
  if cls.forceActive then { p with active := true } else p

/-- One persisted `PluginConfiguration` row as consumed by the manager
(`identifier`, `channel` (slug, `none` = global), `active`,
`configuration`). -/
structure DbCfg where
  identifier : String
  channel : Option String
  active : Bool
  configuration : List CItem
deriving Repr, DecidableEq

/-- `PluginsManager._load_plugin` (`cms/plugins/manager.py`): if the db
configs map holds a row for the class's `PLUGIN_ID`, take configuration,
active flag and channel from that row; otherwise use the class defaults and
the caller-supplied channel. -/
def loadPlugin (cls : PClass β α) (dbConfigsMap : List DbCfg)
    (channel : Option String) : Plugin β α :=
  match dbConfigsMap.find? (fun d => d.identifier = cls.pluginId) with
  | some db => pluginInit cls db.configuration db.active db.channel
  | none => pluginInit cls cls.defaultConfiguration cls.defaultActive channel

/-- `PluginsManager.__run_method_on_single_plugin`
(`cms/plugins/manager.py`): run `methodName` on `plugin`.  A `none` plugin
(as produced by `get_plugin` misses) has no attributes, so the `getattr`
default `NotImplemented` is returned and the previous value kept. -/
def runMethodOnSinglePlugin (plugin : Option (Plugin β α)) (methodName : String)
    (previousValue : α) (args : β) : α :=
  match plugin with
  | none => previousValue
  | some p =>
    match p.hooks methodName with
    | none => previousValue
    | some f =>
      match f args previousValue with
      | none => previousValue
      | some v => v

/-- The mutable state built by `PluginsManager.__init__`
(`cms/plugins/manager.py`): the full instance list, the global instances,
and the per-channel map.  `pluginsPerChannel` is a `defaultdict(list)`:
unknown slugs map to `[]`. -/
structure PluginsManager (β α : Type) where
  allPlugins : List (Plugin β α)
  globalPlugins : List (Plugin β α)
  pluginsPerChannel : String → List (Plugin β α)

/-- The body of the inner `for channel in channels:` loop of
`PluginsManager.__init__` for one per-channel plugin class: load the class
against that channel's db configs and append the instance to
`plugins_per_channel[channel.slug]` and `all_plugins`. -/
def loadChannelStep (channelCfgs : String → List DbCfg) (cls : PClass β α)
    (st : PluginsManager β α) (ch : String) : PluginsManager β α :=
  let plugin := loadPlugin cls (channelCfgs ch) (some ch)
  { st with
      pluginsPerChannel := fun s =>
        if s = ch then st.pluginsPerChannel s ++ [plugin]
        else st.pluginsPerChannel s,
      allPlugins := st.allPlugins ++ [plugin] }

/-- The body of the `for plugin_path in plugins:` loop of
`PluginsManager.__init__` (`cms/plugins/manager.py`) for one plugin class:
a non-per-channel class is loaded once against the global db configs and
appended to `global_plugins` and `all_plugins`; a per-channel class runs
the inner channel loop. -/
def loadClassStep (channels : List String) (globalCfgs : List DbCfg)
    (channelCfgs : String → List DbCfg) (st : PluginsManager β α)
    (cls : PClass β α) : PluginsManager β α :=
  if !cls.perChannel then
    let plugin := loadPlugin cls globalCfgs none
    { st with globalPlugins := st.globalPlugins ++ [plugin],
              allPlugins := st.allPlugins ++ [plugin] }
  else
    channels.foldl (loadChannelStep channelCfgs cls) st

/-- The body of the final `for channel in channels:` loop of
`PluginsManager.__init__`:
`plugins_per_channel[channel.slug].extend(global_plugins)`. -/
def extendChannelStep (globalPlugins : List (Plugin β α))
    (pm : String → List (Plugin β α)) (ch : String) :
    String → List (Plugin β α) :=
  fun s => if s = ch then pm s ++ globalPlugins else pm s

/-- `PluginsManager.__init__` (`cms/plugins/manager.py`): starting from
empty state, run `loadClassStep` over the plugin class list in declaration
order, then extend every known channel's per-channel list with
`global_plugins`.  `channels` is the slug list of `Channel.objects.all()`;
`globalCfgs`/`channelCfgs` are the two partitions built by
`_get_db_plugin_configs`. -/
def initManager (classes : List (PClass β α)) (channels : List String)
    (globalCfgs : List DbCfg) (channelCfgs : String → List DbCfg) :
    PluginsManager β α :=
  let st :=
    classes.foldl (loadClassStep channels globalCfgs channelCfgs)
      { allPlugins := [], globalPlugins := [], pluginsPerChannel := fun _ => [] }
  { st with
      pluginsPerChannel :=
        channels.foldl (extendChannelStep st.globalPlugins) st.pluginsPerChannel }

/-- `PluginsManager.get_plugins` (`cms/plugins/manager.py`).  The Python
guard is `if channel_slug:`  — string truthiness, so both `None` and the
empty string select `all_plugins`. -/
def getPlugins (m : PluginsManager β α) (channelSlug : Option String)
    (activeOnly : Bool) : List (Plugin β α) :=
  let plugins :=
    match channelSlug with
    | some s => if s ≠ "" then m.pluginsPerChannel s else m.allPlugins
    | none => m.allPlugins
  if activeOnly then plugins.filter (fun p => p.active) else plugins

/-- `PluginsManager.__run_method_on_plugins` (`cms/plugins/manager.py`):
fold `__run_method_on_single_plugin` left over the active plugins resolved
for `channelSlug`, starting from `defaultValue`. -/
def runMethodOnPlugins (m : PluginsManager β α) (methodName : String)
    (defaultValue : α) (args : β) (channelSlug : Option String) : α :=
  (getPlugins m channelSlug true).foldl
    (fun value plugin => runMethodOnSinglePlugin (some plugin) methodName value args)
    defaultValue

/-! ### Saving a plugin configuration
(`PluginsManager.save_plugin_configuration`, `cms/plugins/manager.py`, and
`BasePlugin.save_plugin_configuration` / `_update_config_items`,
`cms/plugins/base_plugin.py`). -/

/-- A persisted `PluginConfiguration` row as written by
`save_plugin_configuration`.  The model class itself is not under `src/`;
the fields are those read and written by the code under `src/`
(`identifier`, `channel`, `active`, `configuration`, `name`,
`description`).  The `active` default used by `get_or_create` for a fresh
row comes from the model definition and is taken as `false`; no verified
claim depends on it. -/
structure PluginConfigRow where
  identifier : String
  channel : Option String
  active : Bool
  configuration : List CItem
  name : String
  description : String
deriving Repr, DecidableEq

/-- The `cleaned_data` dict passed to `save_plugin_configuration`:
`cleaned_data.get("configuration")` (an absent or `None` entry behaves like
the empty list under the source's truthiness guard) and the optional
`"active"` entry (`none` models `"active" not in cleaned_data`). -/
structure CleanedData where
  configuration : List CItem
  active : Option Bool
deriving Repr, DecidableEq

/-- `BasePlugin._update_config_items` (`cms/plugins/base_plugin.py`).
For every current entry, every update entry with the same name overwrites
its value in turn (the nested `for` loops); a string value for a
`Boolean`-typed field is coerced (`value.lower() == "true"`) when truthy,
and `OUTPUT`-typed fields are never updated.  Afterwards, update names
absent from the current configuration that have a declared structure entry
are appended with the update's value (last occurrence wins, as in the dict
comprehension); Python iterates those names in unspecified `set` order,
modelled here as first-appearance order. -/
def updateConfigItems (configStructure : List CField)
    (configurationToUpdate : List CItem) (currentConfig : List CItem) :
    List CItem :=
  let structureTypeOf := fun (n : String) =>
    (configStructure.find? (fun f => f.name == n)).map CField.ftype
  let updatedCurrent := currentConfig.map (fun ci =>
    configurationToUpdate.foldl (fun ci upd =>
      if ci.name = upd.name then
        let itemType := structureTypeOf upd.name
        let newValue :=
          match upd.value with
          | CVal.s v =>
            if itemType = some "Boolean" ∧ v ≠ "" then CVal.b (v.toLower = "true")
            else CVal.s v
          | CVal.b v => CVal.b v
        if itemType = some "OUTPUT" then ci
        else { ci with value := newValue }
      else ci) ci)
  let currentNames := currentConfig.map CItem.name
  let missingNames := (configurationToUpdate.map CItem.name).eraseDups.filter
    (fun n => !currentNames.contains n)
  let appended := missingNames.filterMap (fun n =>
    if (structureTypeOf n).isSome then
      (configurationToUpdate.reverse.find? (fun u => u.name == n)).map
        (fun u => { name := n, value := u.value : CItem })
    else none)
  updatedCurrent ++ appended

/-- `BasePlugin.save_plugin_configuration` (`cms/plugins/base_plugin.py`):
apply `_update_config_items` when the cleaned configuration is truthy, set
`active` when present, save the row (`validate_plugin_configuration` and
`pre_save_plugin_configuration` are no-ops in `BasePlugin`), then apply
`_append_config_structure` to the in-memory object only — its sole effect
on names/values is dropping entries without a declared structure entry.
Returns `(saved row, returned in-memory object)`. -/
def basePluginSaveConfiguration (configStructure : List CField)
    (row : PluginConfigRow) (cleaned : CleanedData) :
    PluginConfigRow × PluginConfigRow :=
  let cfg :=
    if !cleaned.configuration.isEmpty then
      updateConfigItems configStructure cleaned.configuration row.configuration
    else row.configuration
  let act := match cleaned.active with | some a => a | none => row.active
  let saved := { row with configuration := cfg, active := act }
  let keep := fun (f : CItem) => (configStructure.map CField.name).contains f.name
  let returned := { saved with configuration := saved.configuration.filter keep }
  (saved, returned)

/-- The outcome of `PluginsManager.save_plugin_configuration`: the returned
configuration object (`none` models Python's implicit/explicit `None`), the
new `PluginConfiguration` table, and the in-place mutation performed on the
matched plugin instance (`plugin.active = configuration.active;
plugin.configuration = configuration.configuration`), described as
`(PLUGIN_ID, new active, new configuration)`; `none` when no instance was
mutated. -/
structure SaveOutcome where
  returned : Option PluginConfigRow
  db : List PluginConfigRow
  pluginUpdate : Option (String × Bool × List CItem)

/-- The `for plugin in plugins:` loop body of
`PluginsManager.save_plugin_configuration` (`cms/plugins/manager.py`): the
first plugin whose `PLUGIN_ID` matches is configured — `get_or_create` on
`(identifier, channel)` with the plugin's configuration as the creation
default, the class-level save, then the name/description/instance-field
updates (which are not persisted); with no match the loop falls through
and Python returns `None`. -/
def savePluginInScope (db : List PluginConfigRow) (pluginId : String)
    (cleaned : CleanedData) (plugins : List (Plugin β α))
    (channel : Option String) : SaveOutcome :=
  match plugins.find? (fun p => p.pluginId == pluginId) with
  | none => { returned := none, db := db, pluginUpdate := none }
  | some plugin =>
    let existing := db.find?
      (fun r => r.identifier == pluginId && r.channel == channel)
    let row0 :=
      match existing with
      | some r => r
      | none =>
        { identifier := pluginId, channel := channel, active := false,
          configuration := plugin.configuration, name := "", description := "" }
    let sr := basePluginSaveConfiguration plugin.configStructure row0 cleaned
    let db1 :=
      if existing.isSome then
        db.map (fun r =>
          if r.identifier == pluginId && r.channel == channel then sr.1 else r)
      else db ++ [sr.1]
    let returned :=
      { sr.2 with name := plugin.pluginName,
                  description := plugin.pluginDescription }
    { returned := some returned, db := db1,
      pluginUpdate := some (plugin.pluginId, returned.active,
        returned.configuration) }

/-- `PluginsManager.save_plugin_configuration` (`cms/plugins/manager.py`).
A truthy `channel_slug` resolves the channel's plugin list and requires a
`Channel` row with that slug (`channels` is the slug column, unique);
otherwise the global plugins are used with no channel. -/
def managerSavePluginConfiguration (m : PluginsManager β α)
    (channels : List String) (db : List PluginConfigRow) (pluginId : String)
    (channelSlug : Option String) (cleaned : CleanedData) : SaveOutcome :=
  let branch : Option (List (Plugin β α) × Option String) :=
    match channelSlug with
    | some s =>
      if s ≠ "" then
        if channels.contains s then some (getPlugins m (some s) false, some s)
        else none
      else some (m.globalPlugins, none)
    | none => some (m.globalPlugins, none)
  match branch with
  | none => { returned := none, db := db, pluginUpdate := none }
  | some pc => savePluginInScope db pluginId cleaned pc.1 pc.2

/-! ### Webhook delivery data model
(`cms/core/models.py` rows per `cms/core/migrations/0001_initial.py`;
operations from `cms/plugins/webhook/utils.py` and
`cms/plugins/webhook/plugin.py`). -/

/-- `EventDeliveryStatus`: `pending` / `success` / `failed`. -/
inductive DeliveryStatus
  | pending
  | success
  | failed
deriving Repr, DecidableEq

/-- An `EventPayload` row.  The serialized payload body is opaque and plays
no role in the verified operations, so only the primary key is kept. -/
structure EventPayloadRow where
  id : Nat
deriving Repr, DecidableEq

/-- An `EventDelivery` row (`cms/core/migrations/0001_initial.py`): status,
event type, nullable foreign key to `EventPayload` (related name
`deliveries`), and foreign key to the webhook. -/
structure EventDeliveryRow where
  id : Nat
  status : DeliveryStatus
  eventType : String
  payloadId : Option Nat
  webhookId : Nat
deriving Repr, DecidableEq

/-- The delivery-side database state: payload rows, delivery rows, and the
auto-increment counters for fresh primary keys. -/
structure DeliveryDB where
  payloads : List EventPayloadRow
  deliveries : List EventDeliveryRow
  nextPayloadId : Nat
  nextDeliveryId : Nat
deriving Repr, DecidableEq

/-- `create_event_delivery_list_for_webhooks`
(`cms/plugins/webhook/utils.py`): bulk-create one `EventDelivery` in status
`PENDING` per webhook of the queryset, each carrying `event_type` and
referencing the single given `event_payload`; returns the created rows.
Webhooks are identified by their primary keys. -/
def createEventDeliveryListForWebhooks (db : DeliveryDB) (webhooks : List Nat)
    (eventPayloadId : Nat) (eventType : String) :
    DeliveryDB × List EventDeliveryRow :=
  let rows := webhooks.enum.map (fun iw =>
    { id := db.nextDeliveryId + iw.1, status := DeliveryStatus.pending,
      eventType := eventType, payloadId := some eventPayloadId,
      webhookId := iw.2 : EventDeliveryRow })
  ({ db with deliveries := db.deliveries ++ rows,
             nextDeliveryId := db.nextDeliveryId + webhooks.length }, rows)

/-- Modelled from the spec: `trigger_webhooks_async`
(`cms/plugins/webhook/tasks.py`) is not under `src/`.  Per the spec (§4.4
DeliveryTrigger), with no subscribers it is a no-op; otherwise it
serializes the domain payload exactly once into a single `EventPayload` row
(one DB write), creates one `EventDelivery` per subscriber referencing that
shared payload via `create_event_delivery_list_for_webhooks`, and enqueues
one asynchronous send job per delivery carrying only the delivery id.
Returns the new database state, the created delivery rows, and the job
queue. -/
def triggerWebhooksAsync (db : DeliveryDB) (queue : List Nat)
    (webhooks : List Nat) (eventType : String) :
    DeliveryDB × List EventDeliveryRow × List Nat :=
  if webhooks.isEmpty then (db, [], queue)
  else
    let payloadId := db.nextPayloadId
    let db1 := { db with payloads := db.payloads ++ [{ id := payloadId }],
                         nextPayloadId := payloadId + 1 }
    let out := createEventDeliveryListForWebhooks db1 webhooks payloadId eventType
    (out.1, out.2, queue ++ out.2.map (fun r => r.id))

/-- `delivery_update` (`cms/plugins/webhook/utils.py`): set the delivery's
status and `save(update_fields=["status"])` — only the status field of the
row with that primary key changes. -/
def deliveryUpdate (deliveries : List EventDeliveryRow) (deliveryId : Nat)
    (status : DeliveryStatus) : List EventDeliveryRow :=
  deliveries.map (fun r => if r.id = deliveryId then { r with status := status } else r)

/-- `WebhookPlugin.event_delivery_retry` (`cms/plugins/webhook/plugin.py`):
if the plugin is inactive return the previous value unchanged; otherwise
`delivery_update(delivery, status=PENDING)` and then
`send_webhook_request_async.delay(delivery.pk)` — modelled as appending the
delivery's primary key to the asynchronous job queue. -/
def eventDeliveryRetry (active : Bool) (deliveries : List EventDeliveryRow)
    (queue : List Nat) (deliveryId : Nat) : List EventDeliveryRow × List Nat :=
  if !active then (deliveries, queue)
  else (deliveryUpdate deliveries deliveryId DeliveryStatus.pending,
        queue ++ [deliveryId])

/-- `clear_successful_delivery` (`cms/plugins/webhook/utils.py`): only when
the delivery's status is `SUCCESS`, delete the delivery row, then — when its
`payload_id` is truthy (non-`None` and non-zero) — delete the payload row
with that primary key provided no remaining delivery references it
(`deliveries__isnull=True`). -/
def clearSuccessfulDelivery (db : DeliveryDB) (delivery : EventDeliveryRow) :
    DeliveryDB :=
  if delivery.status = DeliveryStatus.success then
    let deliveries1 := db.deliveries.filter (fun r => r.id != delivery.id)
    let db1 := { db with deliveries := deliveries1 }
    match delivery.payloadId with
    | some p =>
      if p ≠ 0 then
        { db1 with payloads := db1.payloads.filter (fun pay =>
            !(pay.id == p && !(deliveries1.any (fun r => r.payloadId == some pay.id)))) }
      else db1
    | none => db1
  else db

/-! ### Observation helpers and concrete fixtures -/

/-- The value stored under name `n` in a configuration list: the first
entry with that name, as in the source's first-match loops. -/
def configValue (configuration : List CItem) (n : String) : Option CVal :=
  (configuration.find? (fun f => f.name == n)).map CItem.value

/-- The `WebhookPlugin` class constants (`cms/plugins/webhook/plugin.py`):
`PLUGIN_ID = "mirumee.webhooks"`, `PLUGIN_NAME = "Webhooks"`,
`DEFAULT_ACTIVE = True`, `CONFIGURATION_PER_CHANNEL = False`, no declared
`CONFIG_STRUCTURE` or `DEFAULT_CONFIGURATION`, and the `__init__` override
that forces `active = True`.  The hook methods are irrelevant to the
claims about the class and are a parameter. -/
def webhookClass (hooks : String → Option (β → α → Option α)) : PClass β α :=
  { pluginId := "mirumee.webhooks", pluginName := "Webhooks",
    pluginDescription := "", perChannel := false, defaultActive := true,
    defaultConfiguration := [], configStructure := [], forceActive := true,
    hooks := hooks }

/-- Fixture: a hook table implementing only the hook named `"h"`. -/
def hookOnlyH (f : Nat → Nat → Option Nat) :
    String → Option (Nat → Nat → Option Nat) :=
  fun n => if n = "h" then some f else none

/-- Fixture: an active plugin whose `"h"` hook always returns the
`NotImplemented` sentinel. -/
def plugA : Plugin Nat Nat :=
  { pluginId := "a", pluginName := "A", pluginDescription := "",
    active := true, channel := none, configuration := [],
    configStructure := [], hooks := hookOnlyH (fun _ _ => none) }

/-- Fixture: an active plugin whose `"h"` hook returns `7` regardless of
its `previous_value` argument. -/
def plugB : Plugin Nat Nat :=
  { pluginId := "b", pluginName := "B", pluginDescription := "",
    active := true, channel := none, configuration := [],
    configStructure := [], hooks := hookOnlyH (fun _ _ => some 7) }

/-- Fixture: a manager whose global chain is `[plugA, plugB]`. -/
def mgrAB : PluginsManager Nat Nat :=
  { allPlugins := [plugA, plugB], globalPlugins := [plugA, plugB],
    pluginsPerChannel := fun _ => [] }

/-- Fixture: a manager whose global chain is `[plugB, plugA]`. -/
def mgrBA : PluginsManager Nat Nat :=
  { allPlugins := [plugB, plugA], globalPlugins := [plugB, plugA],
    pluginsPerChannel := fun _ => [] }

/-- Fixture: a global (non-per-channel) plugin class, default-active,
implementing `"h"` with constant result `7`. -/
def clsG : PClass Nat Nat :=
  { pluginId := "g", pluginName := "G", pluginDescription := "",
    perChannel := false, defaultActive := true, defaultConfiguration := [],
    configStructure := [], forceActive := false,
    hooks := hookOnlyH (fun _ _ => some 7) }

/-- Fixture: the registry built from `[clsG]` with the single channel
`"c"` and no persisted configuration rows. -/
def mgrG : PluginsManager Nat Nat :=
  initManager [clsG] ["c"] [] (fun _ => [])

/-- Fixture: a plugin class with two declared configuration fields `"x"`,
`"y"` and defaults for both. -/
def clsC6 : PClass Nat Nat :=
  { pluginId := "e", pluginName := "E", pluginDescription := "",
    perChannel := false, defaultActive := true,
    defaultConfiguration := [⟨"x", CVal.s "dx"⟩, ⟨"y", CVal.s "dy"⟩],
    configStructure := [⟨"x", "String"⟩, ⟨"y", "String"⟩],
    forceActive := false, hooks := fun _ => none }

/-- Fixture: an empty delivery database. -/
def dbEmpty : DeliveryDB :=
  { payloads := [], deliveries := [], nextPayloadId := 1, nextDeliveryId := 1 }

/-- Fixture: a delivery database with two payloads and two deliveries. -/
def dbC8 : DeliveryDB :=
  { payloads := [⟨3⟩, ⟨4⟩],
    deliveries := [⟨1, DeliveryStatus.success, "post_updated", some 3, 10⟩,
                   ⟨2, DeliveryStatus.pending, "post_updated", some 4, 11⟩],
    nextPayloadId := 5, nextDeliveryId := 3 }

/-- Fixture: the successful delivery row of `dbC8`. -/
def delC8 : EventDeliveryRow :=
  ⟨1, DeliveryStatus.success, "post_updated", some 3, 10⟩

/-! ## Theorems -/

/-- **C9**: for every configuration — including persisted rows with
`active = false` as loaded by `_load_plugin` — a constructed
`WebhookPlugin` instance has `active = true`: its `__init__` unconditionally
overwrites the flag after `super().__init__`, so the `if not self.active`
guard in its hook methods is never taken on a freshly built registry. -/
theorem webhookPlugin_always_active {β α : Type}
    (hooks : String → Option (β → α → Option α)) (configuration : List CItem)
    (active : Bool) (channel : Option String) (dbConfigsMap : List DbCfg) :
    (pluginInit (webhookClass hooks) configuration active channel).active = true ∧
    (loadPlugin (webhookClass hooks) dbConfigsMap channel).active = true := by
  constructor
  · simp [pluginInit, webhookClass]
  · unfold loadPlugin
    cases dbConfigsMap.find? (fun d => d.identifier = (webhookClass hooks).pluginId) with
    | none => simp [pluginInit, webhookClass]
    | some db => simp [pluginInit, webhookClass]

/-- **C5**: for every delivery passed to `event_delivery_retry` of an
active webhook plugin, the hook persists exactly the status field of that
delivery's row, setting it to `Pending` (all other fields and all other
rows are untouched, as the `r with` update shows), and appends exactly one
asynchronous send job carrying the delivery's primary key. -/
theorem eventDeliveryRetry_resets_and_enqueues (active : Bool)
    (deliveries : List EventDeliveryRow) (queue : List Nat) (deliveryId : Nat)
    (h : active = true) :
    (eventDeliveryRetry active deliveries queue deliveryId).1 =
      deliveries.map (fun r =>
        if r.id = deliveryId then { r with status := DeliveryStatus.pending }
        else r) ∧
    (eventDeliveryRetry active deliveries queue deliveryId).2 =
      queue ++ [deliveryId] := by
  subst h
  simp [eventDeliveryRetry, deliveryUpdate]

/-- Witness for C5 at a concrete failed delivery. -/
theorem eventDeliveryRetry_resets_and_enqueues_witness :
    (eventDeliveryRetry true
        [⟨7, DeliveryStatus.failed, "post_updated", some 3, 11⟩] [] 7).1 =
      [⟨7, DeliveryStatus.pending, "post_updated", some 3, 11⟩] ∧
    (eventDeliveryRetry true
        [⟨7, DeliveryStatus.failed, "post_updated", some 3, 11⟩] [] 7).2 = [7] := by
  have h := eventDeliveryRetry_resets_and_enqueues true
    [⟨7, DeliveryStatus.failed, "post_updated", some 3, 11⟩] [] 7 rfl
  simpa using h

/-- **C1**: `runHook` folds left over the resolved plugin list restricted
to the active plugins: starting from the default value, a plugin that does
not implement the hook leaves the accumulated value unchanged, one whose
method returns the `NotImplemented` sentinel leaves it unchanged, and
otherwise the accumulated value becomes the method's return value; only
`active == true` plugins are visited. -/
theorem runMethodOnPlugins_foldl_spec (m : PluginsManager β α) (name : String)
    (d : α) (args : β) (slug : Option String) :
    runMethodOnPlugins m name d args slug =
      ((getPlugins m slug false).filter (fun p => p.active)).foldl
        (fun value p => runMethodOnSinglePlugin (some p) name value args) d ∧
    (∀ p ∈ getPlugins m slug true, p.active = true) ∧
    (∀ (p : Plugin β α) (v : α), p.hooks name = none →
      runMethodOnSinglePlugin (some p) name v args = v) ∧
    (∀ (p : Plugin β α) (f : β → α → Option α) (v : α), p.hooks name = some f →
      f args v = none → runMethodOnSinglePlugin (some p) name v args = v) ∧
    (∀ (p : Plugin β α) (f : β → α → Option α) (v r : α), p.hooks name = some f →
      f args v = some r → runMethodOnSinglePlugin (some p) name v args = r) := by
  refine ⟨?_, ?_, ?_, ?_, ?_⟩
  · simp [runMethodOnPlugins, getPlugins]
  · intro p hp
    have hfil : getPlugins m slug true =
        (getPlugins m slug false).filter (fun p => p.active) := by
      simp [getPlugins]
    rw [hfil] at hp
    exact (List.mem_filter.mp hp).2
  · intro p v hp
    simp [runMethodOnSinglePlugin, hp]
  · intro p f v hp hf
    simp [runMethodOnSinglePlugin, hp, hf]
  · intro p f v r hp hf
    simp [runMethodOnSinglePlugin, hp, hf]

/-- Witness for C1: on the concrete chain `[plugA, plugB]`, the
skip-on-sentinel and take-result cases instantiate with their hypotheses
discharged. -/
theorem runMethodOnPlugins_foldl_spec_witness :
    plugA.active = true ∧
    runMethodOnSinglePlugin (some plugA) "h" 0 0 = 0 ∧
    runMethodOnSinglePlugin (some plugB) "h" 0 0 = 7 := by
  have h := runMethodOnPlugins_foldl_spec mgrAB "h" (0 : Nat) (0 : Nat) none
  refine ⟨h.2.1 plugA ?_, h.2.2.2.1 plugA (fun _ _ => none) 0 rfl rfl,
    h.2.2.2.2 plugB (fun _ _ => some 7) 0 7 rfl rfl⟩
  have hlist : getPlugins mgrAB none true = [plugA, plugB] := rfl
  rw [hlist]
  exact List.mem_cons_self _ _

/-- **C7**: when plugin `a`'s hook always returns the sentinel and plugin
`b`'s hook returns `V` independently of its previous value, `runHook` over
a chain resolving to `[a, b]` and over one resolving to `[b, a]` both
yield `V`. -/
theorem runHook_order_independent_single_contributor
    (m m' : PluginsManager β α) (name : String) (d : α) (args : β)
    (slug slug' : Option String) (a b : Plugin β α) (f g : β → α → Option α)
    (V : α) (ha : a.hooks name = some f) (hf : ∀ x v, f x v = none)
    (hb : b.hooks name = some g) (hg : ∀ x v, g x v = some V)
    (hab : getPlugins m slug true = [a, b])
    (hba : getPlugins m' slug' true = [b, a]) :
    runMethodOnPlugins m name d args slug = V ∧
    runMethodOnPlugins m' name d args slug' = V := by
  unfold runMethodOnPlugins
  rw [hab, hba]
  simp [runMethodOnSinglePlugin, ha, hb, hf, hg]

/-- Witness for C7 at the concrete chains `[plugA, plugB]` and
`[plugB, plugA]`. -/
theorem runHook_order_independent_single_contributor_witness :
    runMethodOnPlugins mgrAB "h" 0 0 none = 7 ∧
    runMethodOnPlugins mgrBA "h" 0 0 none = 7 :=
  runHook_order_independent_single_contributor mgrAB mgrBA "h" 0 0 none none
    plugA plugB (fun _ _ => none) (fun _ _ => some 7) 7 rfl (fun _ _ => rfl)
    rfl (fun _ _ => rfl) rfl rfl

/-- **C2**: triggering one event for a non-empty list of subscriber
webhooks creates exactly one `EventPayload` row and exactly one
`EventDelivery` row per subscriber; every created delivery is `Pending`,
carries the triggering event type, and references the single shared new
payload. -/
theorem triggerWebhooksAsync_payload_sharing (db : DeliveryDB)
    (queue : List Nat) (webhooks : List Nat) (eventType : String)
    (h : webhooks ≠ []) :
    (triggerWebhooksAsync db queue webhooks eventType).1.payloads =
      db.payloads ++ [{ id := db.nextPayloadId }] ∧
    (triggerWebhooksAsync db queue webhooks eventType).2.1.length =
      webhooks.length ∧
    (triggerWebhooksAsync db queue webhooks eventType).1.deliveries =
      db.deliveries ++ (triggerWebhooksAsync db queue webhooks eventType).2.1 ∧
    (∀ r ∈ (triggerWebhooksAsync db queue webhooks eventType).2.1,
      r.status = DeliveryStatus.pending ∧ r.eventType = eventType ∧
      r.payloadId = some db.nextPayloadId) ∧
    (triggerWebhooksAsync db queue webhooks eventType).2.1.map
        (fun r => r.webhookId) = webhooks := by
  have hne : webhooks.isEmpty = false := by
    cases webhooks with
    | nil => exact absurd rfl h
    | cons x xs => rfl
  refine ⟨?_, ?_, ?_, ?_, ?_⟩ <;>
    simp [triggerWebhooksAsync, createEventDeliveryListForWebhooks, hne,
      List.enum_length, List.map_map, Function.comp]
  · intro r i w hmem hr
    subst hr
    simp
  · exact List.enum_map_snd webhooks

/-- Witness for C2: three subscribers yield one new payload row and three
pending delivery rows referencing it. -/
theorem triggerWebhooksAsync_payload_sharing_witness :
    (triggerWebhooksAsync dbEmpty [] [10, 11, 12] "post_updated").1.payloads =
      [{ id := 1 }] ∧
    (triggerWebhooksAsync dbEmpty [] [10, 11, 12] "post_updated").2.1.length = 3 := by
  have h := triggerWebhooksAsync_payload_sharing dbEmpty [] [10, 11, 12]
    "post_updated" (by decide)
  exact ⟨by simpa [dbEmpty] using h.1, by simpa using h.2.1⟩

/-- **C8**: `clear_successful_delivery` deletes the delivery row only when
its status is `Success`; afterwards the referenced payload row is deleted
exactly when zero remaining deliveries reference it; with a non-`Success`
status nothing at all is modified, and with no referenced payload the
payload table is untouched. -/
theorem clearSuccessfulDelivery_spec (db : DeliveryDB)
    (delivery : EventDeliveryRow) :
    (delivery.status ≠ DeliveryStatus.success →
      clearSuccessfulDelivery db delivery = db) ∧
    (delivery.status = DeliveryStatus.success →
      (clearSuccessfulDelivery db delivery).deliveries =
        db.deliveries.filter (fun r => r.id != delivery.id) ∧
      (∀ p : Nat, delivery.payloadId = some p → p ≠ 0 →
        ∀ pay : EventPayloadRow,
          (pay ∈ (clearSuccessfulDelivery db delivery).payloads ↔
            (pay ∈ db.payloads ∧
              ¬(pay.id = p ∧
                ¬∃ r ∈ (clearSuccessfulDelivery db delivery).deliveries,
                  r.payloadId = some pay.id)))) ∧
      (delivery.payloadId = none →
        (clearSuccessfulDelivery db delivery).payloads = db.payloads)) := by
  constructor
  · intro hne
    simp [clearSuccessfulDelivery, hne]
  · intro hs
    have hdel : (clearSuccessfulDelivery db delivery).deliveries =
        db.deliveries.filter (fun r => r.id != delivery.id) := by
      unfold clearSuccessfulDelivery
      rw [if_pos hs]
      cases hp : delivery.payloadId with
      | none => rfl
      | some p =>
        by_cases hz : p ≠ 0
        · simp [hp, hz]
        · simp [hp, hz]
    refine ⟨hdel, ?_, ?_⟩
    · intro p hp hz pay
      rw [hdel]
      have hpay : (clearSuccessfulDelivery db delivery).payloads =
          db.payloads.filter (fun pay =>
            !(pay.id == p &&
              !((db.deliveries.filter (fun r => r.id != delivery.id)).any
                  (fun r => r.payloadId == some pay.id)))) := by
        simp [clearSuccessfulDelivery, hs, hp, hz]
      rw [hpay]
      constructor
      · intro hmem'
        obtain ⟨hmem, hcond⟩ := List.mem_filter.mp hmem'
        refine ⟨hmem, ?_⟩
        rintro ⟨hid, hnoref⟩
        subst hid
        simp only [beq_self_eq_true, Bool.true_and, Bool.not_not,
          List.any_eq_true, beq_iff_eq] at hcond
        rcases hcond with ⟨r, hr, hrq⟩
        exact hnoref ⟨r, hr, hrq⟩
      · rintro ⟨hmem, hncond⟩
        apply List.mem_filter.mpr
        refine ⟨hmem, ?_⟩
        by_cases hid : pay.id = p
        · subst hid
          have hex : ∃ r ∈ db.deliveries.filter (fun r => r.id != delivery.id),
              r.payloadId = some pay.id := by
            by_contra hno
            exact hncond ⟨rfl, hno⟩
          rcases hex with ⟨r, hr, hrq⟩
          simp only [beq_self_eq_true, Bool.true_and, Bool.not_not,
            List.any_eq_true, beq_iff_eq]
          exact ⟨r, hr, hrq⟩
        · have hfalse : (pay.id == p) = false := by simpa using hid
          simp [hfalse]
    · intro hp
      simp [clearSuccessfulDelivery, hs, hp]

/-- Witness for C8: on `dbC8`, clearing the successful delivery removes it,
prunes its now-unreferenced payload `3`, and keeps payload `4`, which the
pending delivery still references. -/
theorem clearSuccessfulDelivery_spec_witness :
    (clearSuccessfulDelivery dbC8 delC8).deliveries =
      [⟨2, DeliveryStatus.pending, "post_updated", some 4, 11⟩] ∧
    ¬((⟨3⟩ : EventPayloadRow) ∈ (clearSuccessfulDelivery dbC8 delC8).payloads) ∧
    ((⟨4⟩ : EventPayloadRow) ∈ (clearSuccessfulDelivery dbC8 delC8).payloads) := by
  have h := clearSuccessfulDelivery_spec dbC8 delC8
  have hs := h.2 rfl
  have hdel : (clearSuccessfulDelivery dbC8 delC8).deliveries =
      [⟨2, DeliveryStatus.pending, "post_updated", some 4, 11⟩] := by
    rw [hs.1]
    decide
  refine ⟨hdel, ?_, ?_⟩
  · intro hmem
    have h3 := (hs.2.1 3 rfl (by decide) ⟨3⟩).mp hmem
    apply h3.2
    refine ⟨rfl, ?_⟩
    rw [hdel]
    decide
  · refine (hs.2.1 3 rfl (by decide) ⟨4⟩).mpr ⟨by decide, ?_⟩
    rintro ⟨hid, -⟩
    exact absurd hid (by decide)

/-- Helper: if every entry named `n` passes the filter, filtering commutes
with the first-match lookup for `n`. -/
theorem find?_name_filter (l : List CItem) (q : CItem → Bool) (n : String)
    (h : ∀ x : CItem, x.name = n → q x = true) :
    (l.filter q).find? (fun f => f.name == n) =
      l.find? (fun f => f.name == n) := by
  induction l with
  | nil => rfl
  | cons x xs ih =>
    by_cases hx : x.name = n
    · have hq := h x hx
      simp [List.filter_cons, hq, List.find?_cons, hx]
    · have hx' : (x.name == n) = false := by simpa using hx
      by_cases hqx : q x = true
      · simp [List.filter_cons, hqx, List.find?_cons, hx', ih]
      · have : q x = false := by simpa using hqx
        simp [List.filter_cons, this, List.find?_cons, hx', ih]

/-- Helper: first-match lookup distributes over append as `Option.or`. -/
theorem configValue_append (l₁ l₂ : List CItem) (n : String) :
    configValue (l₁ ++ l₂) n = (configValue l₁ n).or (configValue l₂ n) := by
  unfold configValue
  rw [List.find?_append]
  cases l₁.find? (fun f => f.name == n) <;> simp

/-- Helper: a declared name configured in the persisted list keeps its
persisted value through `_update_configuration_structure`. -/
theorem updateCS_value_persisted (cls : PClass β α) (persisted : List CItem)
    (n : String) (v : CVal) (hval : configValue persisted n = some v)
    (hdecl : n ∈ cls.configStructure.map CField.name) :
    configValue (updateConfigurationStructure cls persisted) n = some v := by
  have hq : ∀ x : CItem, x.name = n →
      ((cls.configStructure.map CField.name).contains x.name) = true := by
    intro x hx
    rw [hx]
    simpa using hdecl
  have hupd : configValue (persisted.filter
      (fun f => (cls.configStructure.map CField.name).contains f.name)) n =
      some v := by
    unfold configValue at hval ⊢
    rw [find?_name_filter _ _ _ hq]
    exact hval
  simp only [updateConfigurationStructure]
  split_ifs
  · exact hupd
  · exact hupd
  · rw [configValue_append, hupd]
    rfl

/-- Helper: a declared name absent from the persisted list ends up with the
default configuration's entry (or stays absent when the defaults lack it). -/
theorem updateCS_value_default (cls : PClass β α) (persisted : List CItem)
    (n : String) (hnone : configValue persisted n = none)
    (hdecl : n ∈ cls.configStructure.map CField.name) :
    configValue (updateConfigurationStructure cls persisted) n =
      configValue cls.defaultConfiguration n := by
  have hq : ∀ x : CItem, x.name = n →
      ((cls.configStructure.map CField.name).contains x.name) = true := by
    intro x hx
    rw [hx]
    simpa using hdecl
  have hupd : configValue (persisted.filter
      (fun f => (cls.configStructure.map CField.name).contains f.name)) n =
      none := by
    unfold configValue at hnone ⊢
    rw [find?_name_filter _ _ _ hq]
    exact hnone
  have hupd_names : ∀ x ∈ persisted.filter
      (fun f => (cls.configStructure.map CField.name).contains f.name),
      x.name ≠ n := by
    intro x hx hxn
    have := List.find?_eq_none.mp (by
      unfold configValue at hupd
      exact Option.map_eq_none'.mp hupd) x hx
    simp [hxn] at this
  have hcontains : ((persisted.filter
      (fun f => (cls.configStructure.map CField.name).contains f.name)).map
        CItem.name).contains n = false := by
    cases hc : ((persisted.filter
        (fun f => (cls.configStructure.map CField.name).contains f.name)).map
          CItem.name).contains n with
    | false => rfl
    | true =>
      have hmem : n ∈ (persisted.filter
          (fun f => (cls.configStructure.map CField.name).contains f.name)).map
            CItem.name := by
        simpa using hc
      rcases List.mem_map.mp hmem with ⟨x, hx, hxn⟩
      exact absurd hxn (hupd_names x hx)
  have hmiss : n ∈ (cls.configStructure.map CField.name).filter
      (fun m => !((persisted.filter
        (fun f => (cls.configStructure.map CField.name).contains f.name)).map
          CItem.name).contains m) := by
    have hb : (!((persisted.filter
        (fun f => (cls.configStructure.map CField.name).contains f.name)).map
          CItem.name).contains n) = true := by
      rw [hcontains]
      rfl
    exact List.mem_filter.mpr ⟨hdecl, hb⟩
  have hmiss_ne : ((cls.configStructure.map CField.name).filter
      (fun m => !((persisted.filter
        (fun f => (cls.configStructure.map CField.name).contains f.name)).map
          CItem.name).contains m)).isEmpty = false := by
    rcases List.mem_filter.mp hmiss with ⟨-, -⟩
    cases hl : (cls.configStructure.map CField.name).filter
        (fun m => !((persisted.filter
          (fun f => (cls.configStructure.map CField.name).contains f.name)).map
            CItem.name).contains m) with
    | nil => rw [hl] at hmiss; exact absurd hmiss (List.not_mem_nil n)
    | cons a as => rfl
  simp only [updateConfigurationStructure]
  rw [if_neg (by rw [hmiss_ne]; exact Bool.false_ne_true)]
  by_cases hdef : cls.defaultConfiguration.isEmpty
  · rw [if_pos hdef]
    rw [hupd]
    rw [List.isEmpty_iff.mp hdef]
    rfl
  · rw [if_neg hdef]
    rw [configValue_append, hupd]
    have hqd : ∀ x : CItem, x.name = n →
        (((cls.configStructure.map CField.name).filter
          (fun m => !((persisted.filter
            (fun f => (cls.configStructure.map CField.name).contains f.name)).map
              CItem.name).contains m)).contains x.name) = true := by
      intro x hx
      rw [hx]
      simpa using hmiss
    have := find?_name_filter cls.defaultConfiguration
      (fun k => ((cls.configStructure.map CField.name).filter
        (fun m => !((persisted.filter
          (fun f => (cls.configStructure.map CField.name).contains f.name)).map
            CItem.name).contains m)).contains k.name) n hqd
    unfold configValue
    rw [this]
    rfl

/-- Helper: a name not declared in `CONFIG_STRUCTURE` never survives
`_update_configuration_structure`. -/
theorem updateCS_value_dropped (cls : PClass β α) (persisted : List CItem)
    (n : String) (hnot : n ∉ cls.configStructure.map CField.name) :
    configValue (updateConfigurationStructure cls persisted) n = none := by
  have hnames : ∀ x ∈ updateConfigurationStructure cls persisted,
      x.name ≠ n := by
    intro x hx hxn
    simp only [updateConfigurationStructure] at hx
    have hx' : x ∈ persisted.filter
        (fun f => (cls.configStructure.map CField.name).contains f.name) ∨
        x ∈ cls.defaultConfiguration.filter
          (fun k => (((cls.configStructure.map CField.name).filter
            (fun m => !((persisted.filter
              (fun f => (cls.configStructure.map CField.name).contains f.name)).map
                CItem.name).contains m)).contains k.name)) := by
      split_ifs at hx
      · exact Or.inl hx
      · exact Or.inl hx
      · rcases List.mem_append.mp hx with h | h
        · exact Or.inl h
        · exact Or.inr h
    rcases hx' with h | h
    · have := (List.mem_filter.mp h).2
      rw [hxn] at this
      exact hnot (by simpa using this)
    · have := (List.mem_filter.mp h).2
      rw [hxn] at this
      have hfm : n ∈ (cls.configStructure.map CField.name).filter
          (fun m => !((persisted.filter
            (fun f => (cls.configStructure.map CField.name).contains f.name)).map
              CItem.name).contains m) := by
        simpa using this
      exact hnot (List.mem_filter.mp hfm).1
  unfold configValue
  rw [List.find?_eq_none.mpr (by
    intro x hx
    simpa using hnames x hx)]
  rfl

/-- **C6**: plugin construction merges configurations by name: a persisted
entry for a declared name overrides the default value; a persisted entry
for an undeclared name is dropped; a declared name absent from the
persisted configuration is filled from the class's default configuration
(its lookup there — absent when the defaults lack it too). -/
theorem getPluginConfiguration_merge (cls : PClass β α)
    (persisted : List CItem) (n : String) :
    (n ∈ cls.configStructure.map CField.name →
      (∀ v, configValue persisted n = some v →
        configValue (getPluginConfiguration cls persisted) n = some v) ∧
      (configValue persisted n = none →
        configValue (getPluginConfiguration cls persisted) n =
          configValue cls.defaultConfiguration n)) ∧
    (n ∉ cls.configStructure.map CField.name →
      configValue (getPluginConfiguration cls persisted) n = none) := by
  refine ⟨fun hdecl => ⟨fun v hv => ?_, fun hn => ?_⟩, fun hnot => ?_⟩
  · exact updateCS_value_persisted cls persisted n v hv hdecl
  · exact updateCS_value_default cls persisted n hn hdecl
  · exact updateCS_value_dropped cls persisted n hnot

/-- Witness for C6 on `clsC6` (declares `x`, `y` with defaults): persisted
`x` overrides, unknown `z` is dropped, unconfigured `y` falls back to its
default. -/
theorem getPluginConfiguration_merge_witness :
    configValue (getPluginConfiguration clsC6
      [⟨"z", CVal.s "junk"⟩, ⟨"x", CVal.s "px"⟩]) "x" = some (CVal.s "px") ∧
    configValue (getPluginConfiguration clsC6
      [⟨"z", CVal.s "junk"⟩, ⟨"x", CVal.s "px"⟩]) "z" = none ∧
    configValue (getPluginConfiguration clsC6
      [⟨"z", CVal.s "junk"⟩, ⟨"x", CVal.s "px"⟩]) "y" = some (CVal.s "dy") := by
  have h := getPluginConfiguration_merge clsC6
    [⟨"z", CVal.s "junk"⟩, ⟨"x", CVal.s "px"⟩]
  refine ⟨(h "x").1 (by simp [clsC6]) |>.1 (CVal.s "px") (by rfl),
    (h "z").2 (by simp [clsC6]), ?_⟩
  have hy := ((h "y").1 (by simp [clsC6])).2 (by rfl)
  rw [hy]
  rfl

/-- Helper: the inner channel loop never touches `global_plugins`. -/
theorem loadChannelStep_foldl_global (cc : String → List DbCfg)
    (cls : PClass β α) (channels : List String) (st : PluginsManager β α) :
    (channels.foldl (loadChannelStep cc cls) st).globalPlugins =
      st.globalPlugins := by
  induction channels generalizing st with
  | nil => rfl
  | cons ch chs ih =>
    rw [List.foldl_cons, ih]
    simp [loadChannelStep]

/-- Helper: the inner channel loop leaves the per-channel lists of slugs it
does not visit unchanged. -/
theorem loadChannelStep_foldl_map_not_mem (cc : String → List DbCfg)
    (cls : PClass β α) (channels : List String) (slug : String)
    (h : slug ∉ channels) (st : PluginsManager β α) :
    (channels.foldl (loadChannelStep cc cls) st).pluginsPerChannel slug =
      st.pluginsPerChannel slug := by
  induction channels generalizing st with
  | nil => rfl
  | cons ch chs ih =>
    have hne : slug ≠ ch := fun he => h (he ▸ List.mem_cons_self ch chs)
    rw [List.foldl_cons, ih (fun hm => h (List.mem_cons_of_mem _ hm))]
    simp [loadChannelStep, hne]

/-- Helper: for a visited slug (channel slugs are distinct), the inner
channel loop appends exactly that channel's loaded instance. -/
theorem loadChannelStep_foldl_map_mem (cc : String → List DbCfg)
    (cls : PClass β α) (channels : List String) (slug : String)
    (hmem : slug ∈ channels) (hnd : channels.Nodup) (st : PluginsManager β α) :
    (channels.foldl (loadChannelStep cc cls) st).pluginsPerChannel slug =
      st.pluginsPerChannel slug ++ [loadPlugin cls (cc slug) (some slug)] := by
  induction channels generalizing st with
  | nil => cases hmem
  | cons ch chs ih =>
    rw [List.foldl_cons]
    rcases List.mem_cons.mp hmem with he | hm
    · subst he
      have hnot : slug ∉ chs := (List.nodup_cons.mp hnd).1
      rw [loadChannelStep_foldl_map_not_mem cc cls chs slug hnot]
      simp [loadChannelStep]
    · have hne : slug ≠ ch := fun he => (List.nodup_cons.mp hnd).1 (he ▸ hm)
      rw [ih hm (List.nodup_cons.mp hnd).2]
      simp [loadChannelStep, hne]

/-- Helper: the class loop builds `global_plugins` as the non-per-channel
classes' instances in declaration order. -/
theorem loadClassStep_foldl_global (channels : List String)
    (g : List DbCfg) (cc : String → List DbCfg)
    (classes : List (PClass β α)) (st : PluginsManager β α) :
    (classes.foldl (loadClassStep channels g cc) st).globalPlugins =
      st.globalPlugins ++
        (classes.filter (fun c => !c.perChannel)).map
          (fun c => loadPlugin c g none) := by
  induction classes generalizing st with
  | nil => simp
  | cons c cs ih =>
    rw [List.foldl_cons, ih]
    by_cases hc : c.perChannel
    · have h1 : (loadClassStep channels g cc st c).globalPlugins =
          st.globalPlugins := by
        simp [loadClassStep, hc, loadChannelStep_foldl_global]
      rw [h1]
      simp [List.filter_cons, hc]
    · have hcf : c.perChannel = false := by simpa using hc
      have h1 : (loadClassStep channels g cc st c).globalPlugins =
          st.globalPlugins ++ [loadPlugin c g none] := by
        simp [loadClassStep, hcf]
      rw [h1]
      simp [List.filter_cons, hcf]

/-- Helper: the class loop builds a visited channel's per-channel list as
the per-channel classes' instances for that channel, in declaration
order. -/
theorem loadClassStep_foldl_map_mem (channels : List String)
    (g : List DbCfg) (cc : String → List DbCfg) (slug : String)
    (hmem : slug ∈ channels) (hnd : channels.Nodup)
    (classes : List (PClass β α)) (st : PluginsManager β α) :
    (classes.foldl (loadClassStep channels g cc) st).pluginsPerChannel slug =
      st.pluginsPerChannel slug ++
        (classes.filter (fun c => c.perChannel)).map
          (fun c => loadPlugin c (cc slug) (some slug)) := by
  induction classes generalizing st with
  | nil => simp
  | cons c cs ih =>
    rw [List.foldl_cons, ih]
    by_cases hc : c.perChannel
    · have h1 : (loadClassStep channels g cc st c).pluginsPerChannel slug =
          st.pluginsPerChannel slug ++ [loadPlugin c (cc slug) (some slug)] := by
        simp only [loadClassStep, hc]
        simpa using loadChannelStep_foldl_map_mem cc c channels slug hmem hnd st
      rw [h1]
      simp [List.filter_cons, hc]
    · have hcf : c.perChannel = false := by simpa using hc
      have h1 : (loadClassStep channels g cc st c).pluginsPerChannel slug =
          st.pluginsPerChannel slug := by
        simp [loadClassStep, hcf]
      rw [h1]
      simp [List.filter_cons, hcf]

/-- Helper: the class loop leaves unknown slugs' per-channel lists
untouched. -/
theorem loadClassStep_foldl_map_not_mem (channels : List String)
    (g : List DbCfg) (cc : String → List DbCfg) (slug : String)
    (hns : slug ∉ channels) (classes : List (PClass β α))
    (st : PluginsManager β α) :
    (classes.foldl (loadClassStep channels g cc) st).pluginsPerChannel slug =
      st.pluginsPerChannel slug := by
  induction classes generalizing st with
  | nil => rfl
  | cons c cs ih =>
    rw [List.foldl_cons, ih]
    by_cases hc : c.perChannel
    · simp only [loadClassStep, hc]
      simpa using loadChannelStep_foldl_map_not_mem cc c channels slug hns st
    · have hcf : c.perChannel = false := by simpa using hc
      simp [loadClassStep, hcf]

/-- Helper: the final extension loop leaves unknown slugs untouched. -/
theorem extendChannelStep_foldl_not_mem (gl : List (Plugin β α))
    (channels : List String) (slug : String) (hns : slug ∉ channels)
    (pm : String → List (Plugin β α)) :
    (channels.foldl (extendChannelStep gl) pm) slug = pm slug := by
  induction channels generalizing pm with
  | nil => rfl
  | cons ch chs ih =>
    have hne : slug ≠ ch := fun he => hns (he ▸ List.mem_cons_self ch chs)
    rw [List.foldl_cons, ih (fun hm => hns (List.mem_cons_of_mem _ hm))]
    simp [extendChannelStep, hne]

/-- Helper: the final extension loop appends the global plugins exactly
once to each visited channel's list. -/
theorem extendChannelStep_foldl_mem (gl : List (Plugin β α))
    (channels : List String) (slug : String) (hmem : slug ∈ channels)
    (hnd : channels.Nodup) (pm : String → List (Plugin β α)) :
    (channels.foldl (extendChannelStep gl) pm) slug = pm slug ++ gl := by
  induction channels generalizing pm with
  | nil => cases hmem
  | cons ch chs ih =>
    rw [List.foldl_cons]
    rcases List.mem_cons.mp hmem with he | hm
    · subst he
      have hnot : slug ∉ chs := (List.nodup_cons.mp hnd).1
      rw [extendChannelStep_foldl_not_mem gl chs slug hnot]
      simp [extendChannelStep]
    · have hne : slug ≠ ch := fun he => (List.nodup_cons.mp hnd).1 (he ▸ hm)
      rw [ih hm (List.nodup_cons.mp hnd).2]
      simp [extendChannelStep, hne]

/-- Helper: the hook fold returns the start value when no plugin of the
chain implements the hook. -/
theorem foldl_no_impl (name : String) (args : β) (l : List (Plugin β α))
    (d : α) (h : ∀ p ∈ l, p.hooks name = none) :
    l.foldl (fun value p => runMethodOnSinglePlugin (some p) name value args)
      d = d := by
  induction l generalizing d with
  | nil => rfl
  | cons p ps ih =>
    rw [List.foldl_cons]
    have hp := h p (List.mem_cons_self _ _)
    rw [show runMethodOnSinglePlugin (some p) name d args = d by
      simp [runMethodOnSinglePlugin, hp]]
    exact ih d (fun q hq => h q (List.mem_cons_of_mem _ hq))

/-- **C3**: in a built registry (channel slugs are distinct per the DB
unique constraint), every known channel's effective plugin list is that
channel's per-channel instances followed by the global instances, each
group in the declaration order of the plugin class list; `global_plugins`
is exactly the non-per-channel group.  Stability of repeated `get_plugins`
calls on one registry instance is definitional here: `get_plugins` reads
`plugins_per_channel` without mutating it, so the third conjunct is the
(trivially provable) restatement of that invariant. -/
theorem initManager_channel_chain (classes : List (PClass β α))
    (channels : List String) (g : List DbCfg) (cc : String → List DbCfg)
    (slug : String) (hnd : channels.Nodup) (hmem : slug ∈ channels)
    (hne : slug ≠ "") :
    getPlugins (initManager classes channels g cc) (some slug) false =
      (classes.filter (fun c => c.perChannel)).map
        (fun c => loadPlugin c (cc slug) (some slug)) ++
      (classes.filter (fun c => !c.perChannel)).map
        (fun c => loadPlugin c g none) ∧
    (initManager classes channels g cc).globalPlugins =
      (classes.filter (fun c => !c.perChannel)).map
        (fun c => loadPlugin c g none) ∧
    getPlugins (initManager classes channels g cc) (some slug) false =
      getPlugins (initManager classes channels g cc) (some slug) false := by
  have hst := loadClassStep_foldl_map_mem channels g cc slug hmem hnd classes
    { allPlugins := [], globalPlugins := [], pluginsPerChannel := fun _ => [] }
  have hgl := loadClassStep_foldl_global channels g cc classes
    { allPlugins := [], globalPlugins := [], pluginsPerChannel := fun _ => [] }
  refine ⟨?_, ?_, rfl⟩
  · have hmap : (initManager classes channels g cc).pluginsPerChannel slug =
        (classes.filter (fun c => c.perChannel)).map
          (fun c => loadPlugin c (cc slug) (some slug)) ++
        (classes.filter (fun c => !c.perChannel)).map
          (fun c => loadPlugin c g none) := by
      simp only [initManager]
      rw [extendChannelStep_foldl_mem _ channels slug hmem hnd]
      rw [hst, hgl]
      simp
    have hgp : getPlugins (initManager classes channels g cc) (some slug) false =
        (if slug ≠ "" then
          (initManager classes channels g cc).pluginsPerChannel slug
         else (initManager classes channels g cc).allPlugins) := rfl
    rw [hgp, if_pos hne]
    exact hmap
  · simp only [initManager]
    rw [hgl]
    simp

/-- Witness for C3 on the concrete registry `mgrG` (one global class,
channel `"c"`). -/
theorem initManager_channel_chain_witness :
    getPlugins mgrG (some "c") false = [loadPlugin clsG [] none] ∧
    mgrG.globalPlugins = [loadPlugin clsG [] none] := by
  have h := initManager_channel_chain [clsG] ["c"] [] (fun _ => []) "c"
    (by simp) (by simp) (by decide)
  refine ⟨?_, ?_⟩
  · have h1 := h.1
    rw [show (([clsG].filter (fun c => c.perChannel)).map
        (fun c => loadPlugin c ((fun _ => ([] : List DbCfg)) "c") (some "c")) ++
      ([clsG].filter (fun c => !c.perChannel)).map
        (fun c => loadPlugin c [] none)) = [loadPlugin clsG [] none] from by
        simp [clsG]] at h1
    exact h1
  · have h2 := h.2.1
    rw [show ([clsG].filter (fun c => !c.perChannel)).map
        (fun c => loadPlugin c [] none) = [loadPlugin clsG [] none] from by
        simp [clsG]] at h2
    exact h2

/-- Counterexample to **C4** as stated: the empty string names no known
channel, but Python's `if channel_slug:` treats it as falsy, so
`get_plugins` resolves the full `all_plugins` list instead of an empty
one, and the hook result is the contributing plugin's value, not the
default. -/
theorem runHook_empty_slug_counterexample :
    ("" ∉ (["c"] : List String)) ∧
    mgrG = initManager [clsG] ["c"] [] (fun _ => []) ∧
    getPlugins mgrG (some "") true ≠ [] ∧
    runMethodOnPlugins mgrG "h" 0 0 (some "") = 7 ∧ (7 : Nat) ≠ 0 := by
  refine ⟨by simp, rfl, ?_, rfl, by decide⟩
  intro hempty
  have : (getPlugins mgrG (some "") true).length = 1 := rfl
  rw [hempty] at this
  cases this

/-- **C4** (amended): a *non-empty* channel slug naming no known channel
resolves to an empty plugin list and `runHook` returns the default value
unchanged; likewise a hook name implemented by no plugin in the resolved
list leaves the default unchanged.  (The empty string is falsy in Python
and resolves `all_plugins` instead — see the counterexample.) -/
theorem runHook_unknown_channel_default (classes : List (PClass β α))
    (channels : List String) (g : List DbCfg) (cc : String → List DbCfg)
    (slug : String) (hne : slug ≠ "") (hns : slug ∉ channels)
    (name : String) (d : α) (args : β) (m2 : PluginsManager β α)
    (slug2 : Option String)
    (hnoimpl : ∀ p ∈ getPlugins m2 slug2 true, p.hooks name = none) :
    getPlugins (initManager classes channels g cc) (some slug) true = [] ∧
    runMethodOnPlugins (initManager classes channels g cc) name d args
      (some slug) = d ∧
    runMethodOnPlugins m2 name d args slug2 = d := by
  have hmap : (initManager classes channels g cc).pluginsPerChannel slug = [] := by
    simp only [initManager]
    rw [extendChannelStep_foldl_not_mem _ channels slug hns]
    rw [loadClassStep_foldl_map_not_mem channels g cc slug hns classes]
  have hget : getPlugins (initManager classes channels g cc) (some slug) true = [] := by
    have hgp : getPlugins (initManager classes channels g cc) (some slug) true =
        (if slug ≠ "" then
          (initManager classes channels g cc).pluginsPerChannel slug
         else (initManager classes channels g cc).allPlugins).filter
          (fun p => p.active) := rfl
    rw [hgp, if_pos hne, hmap]
    rfl
  refine ⟨hget, ?_, ?_⟩
  · unfold runMethodOnPlugins
    rw [hget]
    rfl
  · unfold runMethodOnPlugins
    exact foldl_no_impl name args _ d hnoimpl

/-- Witness for C4 (amended) at the concrete registry `mgrG`: the unknown
slug `"x"` yields the default, and the unimplemented hook `"nope"` yields
the default on the full chain. -/
theorem runHook_unknown_channel_default_witness :
    getPlugins (initManager [clsG] ["c"] [] (fun _ => [])) (some "x") true = [] ∧
    runMethodOnPlugins (initManager [clsG] ["c"] [] (fun _ => [])) "nope" 5 0
      (some "x") = 5 ∧
    runMethodOnPlugins mgrG "nope" 5 0 none = 5 := by
  have h := runHook_unknown_channel_default [clsG] ["c"] [] (fun _ => [])
    "x" (by decide) (by simp) "nope" 5 0 mgrG none ?_
  · exact h
  · intro p hp
    have hl : getPlugins mgrG none true = [loadPlugin clsG [] none] := rfl
    rw [hl] at hp
    rcases List.mem_singleton.mp hp with rfl
    rfl

/-- Helper: the class-level save keeps the row's identity fields. -/
theorem basePluginSaveConfiguration_keeps_identity (cs : List CField)
    (row : PluginConfigRow) (cleaned : CleanedData) :
    (basePluginSaveConfiguration cs row cleaned).1.identifier =
      row.identifier ∧
    (basePluginSaveConfiguration cs row cleaned).1.channel = row.channel := by
  constructor <;> rfl

/-- Helper: when no plugin in scope matches the id, the save loop falls
through with no effect. -/
theorem savePluginInScope_no_match (db : List PluginConfigRow)
    (pluginId : String) (cleaned : CleanedData)
    (plugins : List (Plugin β α)) (channel : Option String)
    (h : ∀ p ∈ plugins, p.pluginId ≠ pluginId) :
    savePluginInScope db pluginId cleaned plugins channel =
      { returned := none, db := db, pluginUpdate := none } := by
  have hf : plugins.find? (fun p => p.pluginId == pluginId) = none :=
    List.find?_eq_none.mpr (fun p hp => by simpa using h p hp)
  simp [savePluginInScope, hf]

/-- Helper: when some plugin in scope matches, the save loop leaves a row
keyed `(pluginId, channel)` in the table and returns it. -/
theorem savePluginInScope_success (db : List PluginConfigRow)
    (pluginId : String) (cleaned : CleanedData)
    (plugins : List (Plugin β α)) (channel : Option String)
    (h : ∃ p ∈ plugins, p.pluginId = pluginId) :
    (∃ row ∈ (savePluginInScope db pluginId cleaned plugins channel).db,
      row.identifier = pluginId ∧ row.channel = channel) ∧
    (savePluginInScope db pluginId cleaned plugins channel).returned.isSome
      = true := by
  have hsome : (plugins.find? (fun p => p.pluginId == pluginId)).isSome := by
    rw [List.find?_isSome]
    rcases h with ⟨p, hp, he⟩
    exact ⟨p, hp, by simpa using he⟩
  rcases hfr : plugins.find? (fun p => p.pluginId == pluginId) with _ | plugin
  · rw [hfr] at hsome
    cases hsome
  · cases hex : db.find?
        (fun r => r.identifier == pluginId && r.channel == channel) with
    | some r =>
      have hpred := List.find?_some hex
      have hid : r.identifier = pluginId := by
        have := ((Bool.and_eq_true _ _).mp hpred).1
        simpa using this
      have hch : r.channel = channel := by
        have := ((Bool.and_eq_true _ _).mp hpred).2
        simpa using this
      have hmem : r ∈ db := List.mem_of_find?_eq_some hex
      constructor
      · refine ⟨(basePluginSaveConfiguration plugin.configStructure r cleaned).1,
          ?_, ?_, ?_⟩
        · have hdb : (savePluginInScope db pluginId cleaned plugins channel).db =
              db.map (fun r' =>
                if r'.identifier == pluginId && r'.channel == channel then
                  (basePluginSaveConfiguration plugin.configStructure r cleaned).1
                else r') := by
            simp [savePluginInScope, hfr, hex]
          rw [hdb]
          refine List.mem_map.mpr ⟨r, hmem, ?_⟩
          rw [if_pos hpred]
        · rw [(basePluginSaveConfiguration_keeps_identity _ _ _).1]
          exact hid
        · rw [(basePluginSaveConfiguration_keeps_identity _ _ _).2]
          exact hch
      · simp [savePluginInScope, hfr, hex]
    | none =>
      constructor
      · refine ⟨(basePluginSaveConfiguration plugin.configStructure
            { identifier := pluginId, channel := channel, active := false,
              configuration := plugin.configuration, name := "",
              description := "" } cleaned).1, ?_, ?_, ?_⟩
        · have hdb : (savePluginInScope db pluginId cleaned plugins channel).db =
              db ++ [(basePluginSaveConfiguration plugin.configStructure
                { identifier := pluginId, channel := channel, active := false,
                  configuration := plugin.configuration, name := "",
                  description := "" } cleaned).1] := by
            simp [savePluginInScope, hfr, hex]
          rw [hdb]
          exact List.mem_append_right _ (List.mem_singleton_self _)
        · rw [(basePluginSaveConfiguration_keeps_identity _ _ _).1]
        · rw [(basePluginSaveConfiguration_keeps_identity _ _ _).2]
      · simp [savePluginInScope, hfr, hex]

/-- Counterexample to **C10** as stated: the empty-string slug matches no
existing channel, yet `save_plugin_configuration` does not return `None`
with everything unchanged — Python's `if channel_slug:` is falsy for
`""`, so the global branch is taken with no channel-existence check, and
with a matching global plugin a configuration row is created, a
configuration object is returned, and the plugin instance is mutated. -/
theorem savePluginConfiguration_empty_slug_counterexample :
    ("" ∉ (["c"] : List String)) ∧
    (managerSavePluginConfiguration mgrG ["c"] [] "g" (some "")
      { configuration := [], active := none }).returned.isSome = true ∧
    (managerSavePluginConfiguration mgrG ["c"] [] "g" (some "")
      { configuration := [], active := none }).db.length = 1 ∧
    (managerSavePluginConfiguration mgrG ["c"] [] "g" (some "")
      { configuration := [], active := none }).pluginUpdate ≠ none := by
  refine ⟨by simp, rfl, rfl, ?_⟩
  intro h
  have hup : (managerSavePluginConfiguration mgrG ["c"] [] "g" (some "")
      { configuration := [], active := none }).pluginUpdate =
      some ("g", false, []) := rfl
  rw [hup] at h
  cases h

/-- **C10** (amended): `save_plugin_configuration` returns `None` and
mutates neither any plugin instance nor the configuration table when the
given channel slug is *non-empty* and matches no channel, or when no
plugin in the resolved scope carries the given plugin id; a configuration
row keyed by the plugin id and the resolved channel is present (created or
updated) exactly on the success path, where a configuration object is
returned.  (An empty-string channel slug is falsy in Python and is treated
like `None`: the global scope is used without any channel-existence check
— see the counterexample.) -/
theorem savePluginConfiguration_guards (m : PluginsManager β α)
    (channels : List String) (db : List PluginConfigRow) (pluginId : String)
    (cleaned : CleanedData) :
    (∀ s : String, s ≠ "" → channels.contains s = false →
      managerSavePluginConfiguration m channels db pluginId (some s) cleaned =
        { returned := none, db := db, pluginUpdate := none }) ∧
    (∀ s : String, s ≠ "" → channels.contains s = true →
      (∀ p ∈ getPlugins m (some s) false, p.pluginId ≠ pluginId) →
      managerSavePluginConfiguration m channels db pluginId (some s) cleaned =
        { returned := none, db := db, pluginUpdate := none }) ∧
    ((∀ p ∈ m.globalPlugins, p.pluginId ≠ pluginId) →
      managerSavePluginConfiguration m channels db pluginId none cleaned =
        { returned := none, db := db, pluginUpdate := none }) ∧
    (∀ s : String, s ≠ "" → channels.contains s = true →
      (∃ p ∈ getPlugins m (some s) false, p.pluginId = pluginId) →
      (∃ row ∈ (managerSavePluginConfiguration m channels db pluginId
          (some s) cleaned).db,
        row.identifier = pluginId ∧ row.channel = some s) ∧
      (managerSavePluginConfiguration m channels db pluginId (some s)
        cleaned).returned.isSome = true) ∧
    ((∃ p ∈ m.globalPlugins, p.pluginId = pluginId) →
      (∃ row ∈ (managerSavePluginConfiguration m channels db pluginId
          none cleaned).db,
        row.identifier = pluginId ∧ row.channel = none) ∧
      (managerSavePluginConfiguration m channels db pluginId
        none cleaned).returned.isSome = true) := by
  refine ⟨?_, ?_, ?_, ?_, ?_⟩
  · intro s hne hcont
    have hnm : s ∉ channels := by simpa using hcont
    simp [managerSavePluginConfiguration, hne, hnm]
  · intro s hne hcont hno
    have hm : s ∈ channels := by simpa using hcont
    have hred : managerSavePluginConfiguration m channels db pluginId
        (some s) cleaned =
        savePluginInScope db pluginId cleaned
          (getPlugins m (some s) false) (some s) := by
      simp [managerSavePluginConfiguration, hne, hm]
    rw [hred]
    exact savePluginInScope_no_match db pluginId cleaned _ _ hno
  · intro hno
    have hred : managerSavePluginConfiguration m channels db pluginId
        none cleaned =
        savePluginInScope db pluginId cleaned m.globalPlugins none := by
      simp [managerSavePluginConfiguration]
    rw [hred]
    exact savePluginInScope_no_match db pluginId cleaned _ _ hno
  · intro s hne hcont hex
    have hm : s ∈ channels := by simpa using hcont
    have hred : managerSavePluginConfiguration m channels db pluginId
        (some s) cleaned =
        savePluginInScope db pluginId cleaned
          (getPlugins m (some s) false) (some s) := by
      simp [managerSavePluginConfiguration, hne, hm]
    rw [hred]
    exact savePluginInScope_success db pluginId cleaned _ _ hex
  · intro hex
    have hred : managerSavePluginConfiguration m channels db pluginId
        none cleaned =
        savePluginInScope db pluginId cleaned m.globalPlugins none := by
      simp [managerSavePluginConfiguration]
    rw [hred]
    exact savePluginInScope_success db pluginId cleaned _ _ hex

/-- Witness for C10 on `mgrG`: an unknown slug is a silent no-op, a wrong
plugin id is a silent no-op, and the matching global plugin id creates a
row. -/
theorem savePluginConfiguration_guards_witness :
    managerSavePluginConfiguration mgrG ["c"] [] "g" (some "x")
      { configuration := [], active := none } =
      { returned := none, db := [], pluginUpdate := none } ∧
    managerSavePluginConfiguration mgrG ["c"] [] "other" none
      { configuration := [], active := none } =
      { returned := none, db := [], pluginUpdate := none } ∧
    ((∃ row ∈ (managerSavePluginConfiguration mgrG ["c"] [] "g" none
        { configuration := [], active := none }).db,
      row.identifier = "g" ∧ row.channel = none) ∧
    (managerSavePluginConfiguration mgrG ["c"] [] "g" none
      { configuration := [], active := none }).returned.isSome = true) := by
  have h := savePluginConfiguration_guards mgrG ["c"] [] "g"
    { configuration := [], active := none }
  have h2 := savePluginConfiguration_guards mgrG ["c"] [] "other"
    { configuration := [], active := none }
  refine ⟨h.1 "x" (by decide) (by decide), ?_, ?_⟩
  · refine h2.2.2.1 ?_
    intro p hp
    have hl : mgrG.globalPlugins = [loadPlugin clsG [] none] := rfl
    rw [hl] at hp
    rcases List.mem_singleton.mp hp with rfl
    decide
  · refine h.2.2.2.2 ?_
    refine ⟨loadPlugin clsG [] none, ?_, rfl⟩
    have hl : mgrG.globalPlugins = [loadPlugin clsG [] none] := rfl
    rw [hl]
    exact List.mem_singleton_self _

end Saleor
